import Mathlib

/-!
Verification of the order workflow of the coffe-ucss backend.

The definitions below are a shallow embedding of the order placement and
status-transition workflow of the repository: the enums and row shapes come
from `prisma/schema.prisma`, the operations from `OrderController`
(`createOrder`, `updateOrderStatus`, `cancelOrder`, `getOrderById`) and the
route table (`orderRoutes`).  Currency amounts are carried as rationals;
the `JSNumber` namespace models the IEEE-754 binary64 arithmetic the
controller performs on JS `Number` values exactly (round to nearest, ties
to even), and the pricing loop computes with it: unit prices, line
subtotals and the accumulated subtotal — including the 2.00-minimum
comparison — are the binary64 values the program computes.
-/

set_option maxRecDepth 8000

/-- Decidable equality of `Except` results, used to evaluate the model on
concrete inputs. -/
instance exceptDecEq {ε α : Type} [DecidableEq ε] [DecidableEq α] :
    DecidableEq (Except ε α) := fun x y =>
  match x, y with
  | .ok a, .ok b =>
    if h : a = b then isTrue (by rw [h])
    else isFalse (by intro he; cases he; exact h rfl)
  | .error e, .error f =>
    if h : e = f then isTrue (by rw [h])
    else isFalse (by intro he; cases he; exact h rfl)
  | .ok _, .error _ => isFalse (by intro h; cases h)
  | .error _, .ok _ => isFalse (by intro h; cases h)

namespace CoffeUcss

/-- Order status (schema.prisma, `enum OrderStatus`). -/
inductive OrderStatus where
  | PENDING
  | PREPARING
  | READY
  | DELIVERED
  | CANCELLED
deriving DecidableEq, Fintype, Repr

/-- Payment method (schema.prisma, `enum PaymentMethod`). -/
inductive PaymentMethod where
  | YAPE
  | PLIN
  | TUNKI
  | CASH
deriving DecidableEq, Fintype, Repr

/-- Notification type (schema.prisma, `enum NotificationType`). -/
inductive NotificationType where
  | ORDER
  | PROMO
  | SYSTEM
deriving DecidableEq, Repr

/-- User role (schema.prisma, `enum Role`). -/
inductive Role where
  | CLIENT
  | ADMIN
deriving DecidableEq, Fintype, Repr

/-- Product as the pricing loop reads it (`prisma.product.findUnique`):
identifier, name, current price and availability flag.  The price is the
`Decimal(8, 2)` column, modelled as an exact rational. -/
structure Product where
  id : Nat
  name : String
  price : Rat
  isAvailable : Bool
deriving DecidableEq, Repr

/-- One requested order line (`OrderItemInput` in src/types/orderTypes.ts).
`quantity` is an optional JS number, modelled as an optional integer.  The
`customizations` and `specialNotes` payloads are passed through unchanged by
the controller and play no role in any verified property, so they are
omitted from the model. -/
structure OrderItemInput where
  productId : Nat
  quantity : Option Int
deriving DecidableEq, Repr

/-- One computed line (`ProcessedOrderItem` in src/types/orderTypes.ts). -/
structure ProcessedOrderItem where
  productId : Nat
  quantity : Int
  unitPrice : Rat
  subtotal : Rat
deriving DecidableEq, Repr

/-- Persisted order row (schema.prisma, `model Order`; timestamps omitted). -/
structure OrderRow where
  id : Nat
  userId : Nat
  status : OrderStatus
  deliveryLocation : String
  paymentMethod : PaymentMethod
  subtotal : Rat
  deliveryFee : Rat
  total : Rat
  notes : Option String
deriving DecidableEq, Repr

/-- Persisted order line row (schema.prisma, `model OrderItem`). -/
structure OrderItemRow where
  orderId : Nat
  productId : Nat
  quantity : Int
  unitPrice : Rat
  subtotal : Rat
deriving DecidableEq, Repr

/-- Persisted notification row (schema.prisma, `model Notification`;
`isRead` defaults to false and the created timestamp is omitted). -/
structure NotificationRow where
  userId : Nat
  title : String
  message : String
  type : NotificationType
  orderId : Option Nat
deriving DecidableEq, Repr

/-- The durable state the workflow reads and writes: the three tables of
§3 plus the autoincrement counter for order ids. -/
structure DBState where
  orders : List OrderRow
  orderItems : List OrderItemRow
  notifications : List NotificationRow
  nextOrderId : Nat
deriving DecidableEq, Repr

/-- Catalog lookup (`prisma.product.findUnique({ where: { id } })`). -/
def findProduct (catalog : List Product) (pid : Nat) : Option Product :=
  catalog.find? fun p => p.id == pid

/-- Order lookup (`prisma.order.findUnique({ where: { id } })`). -/
def findOrder (db : DBState) (orderId : Nat) : Option OrderRow :=
  db.orders.find? fun o => o.id == orderId

/-- Failure outcomes of `OrderController.createOrder`, by response code:
`NO_ITEMS_IN_ORDER`, `PRODUCT_NOT_FOUND`, `PRODUCT_NOT_AVAILABLE`,
`MINIMUM_ORDER_NOT_MET` and the catch-all 500 `ORDER_CREATE_ERROR`. -/
inductive CreateOrderError where
  | noItemsInOrder
  | productNotFound (productId : Nat)
  | productNotAvailable (name : String)
  | minimumOrderNotMet
  | orderCreateError
deriving DecidableEq, Repr

/-- The quantity the controller uses for a line: `item.quantity || 1`.
JS `||` falls back on every falsy value, so an explicit quantity of `0`
is replaced by `1` exactly like an absent one. -/
def effectiveQuantity : Option Int → Int
  | none => 1
  | some q => if q = 0 then 1 else q

namespace JSNumber

/-- Floor of a rational, computed on the normalized numerator and
denominator with flooring integer division. -/
def ratFloor (q : Rat) : Int := Int.fdiv q.num (q.den : Int)

/-- Base-2 logarithm of a natural number, structurally recursive on an
explicit fuel bound so that it reduces inside the kernel. -/
def log2Fuel : Nat → Nat → Nat
  | 0, _ => 0
  | fuel + 1, n => if n ≤ 1 then 0 else log2Fuel fuel (n / 2) + 1

/-- An integer as a rational, built directly on the `Rat` structure so
that concrete values of any size reduce in one step. -/
def intToRat (n : Int) : Rat := ⟨n, 1, one_ne_zero, Nat.coprime_one_right _⟩

/-- Powers of two as rationals, computed on natural numbers. -/
def pow2 (k : Nat) : Rat := intToRat ((2 ^ k : Nat) : Int)

/-- Floor of the base-2 logarithm of a positive rational no smaller than
2 to the power -64 (every currency value in scope is far inside that
range). -/
def floorLog2 (q : Rat) : Int :=
  (log2Fuel 4096 (ratFloor (q * pow2 64)).toNat : Int) - 64

/-- Rounding of a rational to the nearest integer, ties to even — the
rounding mode of IEEE-754 binary64 arithmetic. -/
def roundHalfEven (x : Rat) : Int :=
  let f := ratFloor x
  let r := x - intToRat f
  if r < 1 / 2 then f
  else if 1 / 2 < r then f + 1
  else if f % 2 = 0 then f else f + 1

/-- Rounding of a positive rational in the normal range to the nearest
IEEE-754 binary64 value (53 significant bits, ties to even). -/
def fl64pos (q : Rat) : Rat :=
  let e := floorLog2 q
  if e ≤ 52 then
    intToRat (roundHalfEven (q * pow2 (52 - e).toNat)) / pow2 (52 - e).toNat
  else
    intToRat (roundHalfEven (q / pow2 (e - 52).toNat)) * pow2 (e - 52).toNat

/-- Rounding of a rational to the nearest IEEE-754 binary64 value.  This
models what a JS `Number` stores; overflow and subnormals are outside the
range of interest and are not modelled. -/
def fl64 (q : Rat) : Rat :=
  if q = 0 then 0 else if q < 0 then -fl64pos (-q) else fl64pos q

/-- The line subtotal as the controller computes it in JS numbers
(part_001 lines 78-79): `unitPrice = Number(product.price)` rounds the
decimal price to binary64, and `unitPrice * quantity` rounds the float
product again. -/
def jsLineSubtotal (price : Rat) (quantity : Int) : Rat :=
  fl64 (fl64 price * intToRat quantity)

/-- Binary64 addition: the JS `+=` and `+` on numbers round the exact sum
back to a double. -/
def jsAdd (a b : Rat) : Rat := fl64 (a + b)

end JSNumber

/-- The pricing loop of `OrderController.createOrder` (part_001 lines
52-91), arithmetic included: look each line's product up, fail on a
missing or unavailable product, then compute in binary64 exactly as the
JS does — `unitPrice = Number(product.price)` rounds the decimal price to
a double, `itemSubtotal = unitPrice * quantity` rounds the product, and
`subtotal += itemSubtotal` accumulates left to right with a rounded
addition per line.  The accumulator argument is the running `subtotal`;
line order is preserved. -/
def processItemsAux (catalog : List Product) :
    Rat → List OrderItemInput →
      Except CreateOrderError (List ProcessedOrderItem × Rat)
  | subAcc, [] => .ok ([], subAcc)
  | subAcc, item :: rest =>
    match findProduct catalog item.productId with
    | none => .error (.productNotFound item.productId)
    | some product =>
      if product.isAvailable = false then
        .error (.productNotAvailable product.name)
      else
        let quantity := effectiveQuantity item.quantity
        let unitPrice := JSNumber.fl64 product.price
        let itemSubtotal := JSNumber.fl64 (unitPrice * JSNumber.intToRat quantity)
        match processItemsAux catalog (JSNumber.jsAdd subAcc itemSubtotal) rest with
        | .error e => .error e
        | .ok (lines, sub) =>
          .ok ({ productId := item.productId, quantity := quantity,
                 unitPrice := unitPrice, subtotal := itemSubtotal } :: lines,
               sub)

/-- The pricing loop started with `subtotal = 0`, as the controller does. -/
def processItems (catalog : List Product) (items : List OrderItemInput) :
    Except CreateOrderError (List ProcessedOrderItem × Rat) :=
  processItemsAux catalog 0 items

/-- Decoding of the raw `paymentMethod` string against the closed
`payment_methods` enum of the schema.  The order route registers no
validator middleware, so the string reaches the Prisma write unchecked
(`paymentMethod as any`); a string outside the enum makes the write fail. -/
def decodePaymentMethod : String → Option PaymentMethod
  | "YAPE" => some .YAPE
  | "PLIN" => some .PLIN
  | "TUNKI" => some .TUNKI
  | "CASH" => some .CASH
  | _ => none

/-- The raw request body of `POST /api/orders`.  The route attaches only
`authenticateToken` (no validation middleware), so `deliveryLocation` and
`paymentMethod` may be absent or arbitrary strings.  An absent `items`
field takes the same branch as an empty list (`!items || items.length === 0`),
so it is folded into the empty list. -/
structure CreateOrderRequest where
  items : List OrderItemInput
  deliveryLocation : Option String
  paymentMethod : Option String
  notes : Option String
deriving DecidableEq, Repr

/-- The order line row written for a computed line inside the creation
transaction. -/
def mkOrderItemRow (orderId : Nat) (l : ProcessedOrderItem) : OrderItemRow :=
  { orderId := orderId, productId := l.productId, quantity := l.quantity,
    unitPrice := l.unitPrice, subtotal := l.subtotal }

/-- Whether a value fits a Postgres `numeric(8, 2)` column (schema.prisma
`@db.Decimal(8, 2)`): the column holds at most 999999.99, and an inserted
value of magnitude 999999.995 or more rounds past that capacity and makes
the insert fail. -/
def fitsDecimal82 (q : Rat) : Bool := decide (|q| < 999999995 / 1000)

/-- Whether the computed order fits the store's column types: the
`numeric(8, 2)` money columns of the order and its lines and the `int4`
quantity column.  An out-of-range value makes an insert inside the
`prisma.$transaction` fail, rolling the whole write back into the
catch-all 500. -/
def writeFits (lines : List ProcessedOrderItem) (subtotal total : Rat) : Bool :=
  fitsDecimal82 subtotal && fitsDecimal82 total &&
    lines.all fun l =>
      fitsDecimal82 l.unitPrice && fitsDecimal82 l.subtotal &&
        decide (-2147483648 ≤ l.quantity) && decide (l.quantity ≤ 2147483647)

/-- The confirmation notification written inside the creation transaction. -/
def mkOrderConfirmedNotification (userId orderId : Nat) : NotificationRow :=
  { userId := userId, title := "Pedido confirmado",
    message := "Tu pedido #" ++ toString orderId ++
      " ha sido confirmado y está siendo procesado.",
    type := .ORDER, orderId := some orderId }

/-- Embedding of `OrderController.createOrder` (part_001 lines 10-190).  The
express-validator check at the top is dead code on this route (no
validators are registered), so the first effective check is the empty-items
guard; then the pricing loop (binary64, see `processItems`), the
minimum-amount test `subtotal < 2.0` on the binary64 accumulation, the fee
and total, and one `prisma.$transaction` writing the order row, its line
rows and the confirmation notification.  A write the store rejects —
absent `delivery_location`, string outside the `payment_methods` enum, or
a value outside its column type (`writeFits`) — rolls the whole
transaction back and surfaces as the catch-all 500.  The recorded
`total` is `subtotal + deliveryFee`: the source computes it with one more
binary64 addition whose sub-ulp rounding the `Decimal(8, 2)` columns that
both fields are persisted into erase, so the model records the persisted
sum exactly. -/
def createOrder (catalog : List Product) (db : DBState) (userId : Nat)
    (req : CreateOrderRequest) : DBState × Except CreateOrderError OrderRow :=
  if req.items.isEmpty then (db, .error .noItemsInOrder)
  else
    match processItems catalog req.items with
    | .error e => (db, .error e)
    | .ok (orderItems, subtotal) =>
      if subtotal < 2 then (db, .error .minimumOrderNotMet)
      else
        let deliveryFee : Rat := 1
        let total := subtotal + deliveryFee
        match req.deliveryLocation, req.paymentMethod.bind decodePaymentMethod with
        | some loc, some pm =>
          if writeFits orderItems subtotal total then
            let oid := db.nextOrderId
            let row : OrderRow :=
              { id := oid, userId := userId, status := .PENDING,
                deliveryLocation := loc, paymentMethod := pm,
                subtotal := subtotal, deliveryFee := deliveryFee, total := total,
                notes := req.notes }
            ({ orders := db.orders ++ [row],
               orderItems := db.orderItems ++ orderItems.map (mkOrderItemRow oid),
               notifications := db.notifications ++
                 [mkOrderConfirmedNotification userId oid],
               nextOrderId := oid + 1 },
             .ok row)
          else (db, .error .orderCreateError)
        | _, _ => (db, .error .orderCreateError)

/-- The transition table of `OrderController.updateOrderStatus`
(`validTransitions`, part_001 lines 555-561). -/
def validTransitions : OrderStatus → List OrderStatus
  | .PENDING => [.PREPARING, .CANCELLED]
  | .PREPARING => [.READY, .CANCELLED]
  | .READY => [.DELIVERED, .CANCELLED]
  | .DELIVERED => []
  | .CANCELLED => []

/-- The notification text per destination state (`statusMessages`,
part_001 lines 581-586).  `PENDING` has no entry; JS interpolation of a
missing key yields the text "undefined". -/
def statusMessages : OrderStatus → Option String
  | .PREPARING => some "Tu pedido está siendo preparado"
  | .READY => some "Tu pedido está listo para entrega"
  | .DELIVERED => some "Tu pedido ha sido entregado"
  | .CANCELLED => some "Tu pedido ha sido cancelado"
  | .PENDING => none

/-- The notification written by a successful admin status transition. -/
def mkStatusNotification (targetUserId orderId : Nat) (s : OrderStatus) :
    NotificationRow :=
  { userId := targetUserId, title := "Estado del pedido actualizado",
    message := "Pedido #" ++ toString orderId ++ ": " ++
      (statusMessages s).getD "undefined",
    type := .ORDER, orderId := some orderId }

/-- The row-level effect of `tx.order.update({ where: { id }, data: { status } })`:
the row with the given id gets the new status, every other field and every
other row is untouched. -/
def statusPatch (orderId : Nat) (s : OrderStatus) (o : OrderRow) : OrderRow :=
  if o.id == orderId then { o with status := s } else o

/-- Failure outcomes of `OrderController.updateOrderStatus`:
`ORDER_NOT_FOUND` and `INVALID_STATUS_TRANSITION` (the integer id parse and
the dead express-validator check are outside the model). -/
inductive UpdateStatusError where
  | orderNotFound
  | invalidStatusTransition (src dst : OrderStatus)
deriving DecidableEq, Repr

/-- Embedding of `OrderController.updateOrderStatus` (part_001 lines 512-617): load the
order, check the requested transition against `validTransitions`, then in
one transaction persist the new status and one notification to the order's
owner keyed by the destination state. -/
def updateOrderStatus (db : DBState) (orderId : Nat) (newStatus : OrderStatus) :
    DBState × Except UpdateStatusError OrderRow :=
  match findOrder db orderId with
  | none => (db, .error .orderNotFound)
  | some order =>
    if newStatus ∈ validTransitions order.status then
      ({ db with
         orders := db.orders.map (statusPatch orderId newStatus),
         notifications := db.notifications ++
           [mkStatusNotification order.userId orderId newStatus] },
       .ok { order with status := newStatus })
    else
      (db, .error (.invalidStatusTransition order.status newStatus))

/-- Failure outcomes of `OrderController.cancelOrder`: `ORDER_NOT_FOUND`,
`ORDER_ACCESS_DENIED`, `ORDER_CANNOT_BE_CANCELLED`. -/
inductive CancelOrderError where
  | orderNotFound
  | orderAccessDenied
  | orderCannotBeCancelled
deriving DecidableEq, Repr

/-- The notification written by a successful user cancellation. -/
def mkCancelNotification (userId orderId : Nat) : NotificationRow :=
  { userId := userId, title := "Pedido cancelado",
    message := "Tu pedido #" ++ toString orderId ++
      " ha sido cancelado exitosamente.",
    type := .ORDER, orderId := some orderId }

/-- Embedding of `OrderController.cancelOrder` (part_001 lines 339-427): load the order,
check the caller owns it, check it is still `PENDING`, then in one
transaction set the status to `CANCELLED` and write one notification. -/
def cancelOrder (db : DBState) (userId : Nat) (orderId : Nat) :
    DBState × Except CancelOrderError OrderRow :=
  match findOrder db orderId with
  | none => (db, .error .orderNotFound)
  | some order =>
    if order.userId ≠ userId then (db, .error .orderAccessDenied)
    else if order.status ≠ .PENDING then (db, .error .orderCannotBeCancelled)
    else
      ({ db with
         orders := db.orders.map (statusPatch orderId .CANCELLED),
         notifications := db.notifications ++ [mkCancelNotification userId orderId] },
       .ok { order with status := .CANCELLED })


/-- Failure outcome of `OrderController.getOrderById` (the integer id parse
is outside the model): `ORDER_NOT_FOUND`. -/
inductive GetOrderError where
  | orderNotFound
deriving DecidableEq, Repr

/-- Embedding of `OrderController.getOrderById` (part_001 lines 257-334): the where
clause is `{ id }` for an admin and `{ id, userId }` for everyone else, so
a non-admin caller sees `ORDER_NOT_FOUND` both for an absent id and for an
order owned by someone else. -/
def getOrderById (db : DBState) (callerId : Nat) (role : Role) (orderId : Nat) :
    Except GetOrderError OrderRow :=
  match db.orders.find? (fun o => o.id == orderId &&
      (role == .ADMIN || o.userId == callerId)) with
  | some o => .ok o
  | none => .error .orderNotFound

/-! Shared predicates, helpers and concrete inputs for the proofs. -/

/-- A requested line whose product exists and is available — the condition
under which the pricing loop accepts the line. -/
def lineValid (catalog : List Product) (item : OrderItemInput) : Prop :=
  ∃ p, findProduct catalog item.productId = some p ∧ p.isAvailable = true

/-- The invariant of §3: an order's total is its subtotal plus its
delivery fee. -/
def moneyInvariant (db : DBState) : Prop :=
  ∀ o ∈ db.orders, o.total = o.subtotal + o.deliveryFee

/-- The transition table exactly as the specification lists it in §4.3. -/
def specTransitionPairs : List (OrderStatus × OrderStatus) :=
  [(.PENDING, .PREPARING), (.PENDING, .CANCELLED),
   (.PREPARING, .READY), (.PREPARING, .CANCELLED),
   (.READY, .DELIVERED), (.READY, .CANCELLED)]

/-- A one-product catalog used to evaluate the operations concretely. -/
def exampleCatalog : List Product :=
  [{ id := 1, name := "Latte", price := 7/2, isAvailable := true }]

/-- The empty store state. -/
def exampleEmptyDb : DBState :=
  { orders := [], orderItems := [], notifications := [], nextOrderId := 1 }

/-- A pending order of user 7 used to evaluate the operations concretely. -/
def exampleOrder : OrderRow :=
  { id := 1, userId := 7, status := .PENDING, deliveryLocation := "Aula 101",
    paymentMethod := .CASH, subtotal := 7, deliveryFee := 1, total := 8,
    notes := none }

/-- A store state holding just `exampleOrder`. -/
def exampleDb : DBState :=
  { orders := [exampleOrder], orderItems := [], notifications := [],
    nextOrderId := 2 }

/-- A request used throughout: one line of product 1 (price 3.50) with
quantity 2, giving subtotal 7.00 and total 8.00. -/
def exampleCreateReq : CreateOrderRequest :=
  { items := [{ productId := 1, quantity := some 2 }],
    deliveryLocation := some "Aula 101", paymentMethod := some "CASH",
    notes := none }

/-- The computed line of `exampleCreateReq`. -/
def exampleLine : ProcessedOrderItem :=
  { productId := 1, quantity := 2, unitPrice := 7/2, subtotal := 7 }

/-- A request supplying the explicit quantity 0 for its only line. -/
def reqQtyZero : CreateOrderRequest :=
  { items := [{ productId := 1, quantity := some 0 }],
    deliveryLocation := some "Aula 101", paymentMethod := some "CASH",
    notes := none }

/-- A request supplying an explicit negative quantity on its first line
(the second line keeps the accumulated subtotal above the minimum). -/
def reqQtyNegative : CreateOrderRequest :=
  { items := [{ productId := 1, quantity := some (-2) },
              { productId := 1, quantity := some 3 }],
    deliveryLocation := some "Aula 101", paymentMethod := some "CASH",
    notes := none }

/-- A priceable request (subtotal 7.00 ≥ 2.00) with no delivery location
and a payment method outside the enum. -/
def reqMissingLocation : CreateOrderRequest :=
  { items := [{ productId := 1, quantity := some 2 }],
    deliveryLocation := none, paymentMethod := some "BITCOIN", notes := none }

/-- A malformed-shape request whose only line names a missing product. -/
def reqBadShapeUnknownProduct : CreateOrderRequest :=
  { items := [{ productId := 99, quantity := some 1 }],
    deliveryLocation := none, paymentMethod := none, notes := none }

/-- A two-product catalog with prices 0.70 and 0.20, neither of which is
representable in binary64. -/
def catalogCents : List Product :=
  [{ id := 1, name := "Cortado", price := 7/10, isAvailable := true },
   { id := 2, name := "Galleta", price := 1/5, isAvailable := true }]

/-- The five-line order 0.70 + 0.70 + 0.20 + 0.20 + 0.20: its exact
decimal subtotal is exactly 2.00, but the binary64 accumulation the
controller computes ends at 1.9999999999999998. -/
def reqFiveLines : CreateOrderRequest :=
  { items := [⟨1, none⟩, ⟨1, none⟩, ⟨2, none⟩, ⟨2, none⟩, ⟨2, none⟩],
    deliveryLocation := some "Aula 101", paymentMethod := some "CASH",
    notes := none }

/-- The order subtotal in the exact decimal arithmetic the specification
prescribes (§4.1: each line is the catalog unit price times the quantity,
summed over the lines).  Stated from the specification's words, as the
reference the program's binary64 accumulation is compared against. -/
def exactSubtotal (catalog : List Product) (items : List OrderItemInput) : Rat :=
  (items.map fun i =>
    match findProduct catalog i.productId with
    | some p => p.price * JSNumber.intToRat (effectiveQuantity i.quantity)
    | none => 0).sum

/-- The claimed table agrees with the code's `validTransitions` lookup. -/
lemma mem_specTransitionPairs (a b : OrderStatus) :
    (a, b) ∈ specTransitionPairs ↔ b ∈ validTransitions a := by
  cases a <;> cases b <;> decide

/-- Claim C1: for every order and every requested new status, the admin
status-transition operation succeeds exactly when the pair of current and
requested status is in the table of §4.3; any other pair fails with
`InvalidStatusTransition` and mutates nothing, and every successful
transition updates only that order's status and appends exactly one
notification to the order's owner, keyed by the destination state. -/
theorem claim1_transition_table (db : DBState) (oid : Nat) (s : OrderStatus)
    (order : OrderRow) (h : findOrder db oid = some order) :
    ((∃ r, (updateOrderStatus db oid s).2 = .ok r) ↔
        (order.status, s) ∈ specTransitionPairs)
    ∧ ((order.status, s) ∉ specTransitionPairs →
        updateOrderStatus db oid s =
          (db, .error (.invalidStatusTransition order.status s)))
    ∧ ((order.status, s) ∈ specTransitionPairs →
        updateOrderStatus db oid s =
          ({ db with
             orders := db.orders.map (statusPatch oid s),
             notifications := db.notifications ++
               [mkStatusNotification order.userId oid s] },
           .ok { order with status := s })) := by
  rw [mem_specTransitionPairs]
  unfold updateOrderStatus
  rw [h]
  by_cases hmem : s ∈ validTransitions order.status
  · simp [hmem]
  · simp [hmem]

/-- Witness for C1 at a concrete store: the transition PENDING→PREPARING
of `exampleOrder` succeeds. -/
theorem claim1_transition_table_witness :
    ∃ r, (updateOrderStatus exampleDb 1 .PREPARING).2 = .ok r := by
  have h := claim1_transition_table exampleDb 1 .PREPARING exampleOrder
    (by with_unfolding_all decide)
  exact h.1.mpr (by decide)

/-- Claim C5: user cancellation of an existing order succeeds exactly when
the caller owns the order and it is still PENDING, in which case the
status becomes CANCELLED; a non-owner gets `OrderAccessDenied` whatever
the status, the owner of a non-PENDING order gets
`OrderCannotBeCancelled`, and both failures mutate nothing. -/
theorem claim5_cancel_own_order (db : DBState) (uid oid : Nat)
    (order : OrderRow) (h : findOrder db oid = some order) :
    ((∃ r, (cancelOrder db uid oid).2 = .ok r) ↔
        order.userId = uid ∧ order.status = .PENDING)
    ∧ (order.userId ≠ uid →
        cancelOrder db uid oid = (db, .error .orderAccessDenied))
    ∧ (order.userId = uid → order.status ≠ .PENDING →
        cancelOrder db uid oid = (db, .error .orderCannotBeCancelled))
    ∧ (order.userId = uid → order.status = .PENDING →
        cancelOrder db uid oid =
          ({ db with
             orders := db.orders.map (statusPatch oid .CANCELLED),
             notifications := db.notifications ++
               [mkCancelNotification uid oid] },
           .ok { order with status := .CANCELLED })) := by
  unfold cancelOrder
  rw [h]
  by_cases hown : order.userId = uid
  · by_cases hst : order.status = OrderStatus.PENDING
    · simp [hown, hst]
    · simp [hown, hst]
  · simp [hown]

/-- Witness for C5 at a concrete store: user 9 does not own `exampleOrder`
and is denied. -/
theorem claim5_cancel_own_order_witness :
    cancelOrder exampleDb 9 1 = (exampleDb, .error .orderAccessDenied) := by
  have h := claim5_cancel_own_order exampleDb 9 1 exampleOrder
    (by with_unfolding_all decide)
  exact h.2.1 (by decide)

/-- What the pricing loop guarantees when it accepts a line list: the
returned subtotal is the left-to-right binary64 accumulation of the line
subtotals on top of the accumulator, one line per input in order, each
line's quantity is `item.quantity || 1`, each line's unit price is the
binary64 reading of the catalog price, and each line's subtotal is the
binary64 product of that unit price and the quantity. -/
lemma processItemsAux_ok (catalog : List Product) :
    ∀ (items : List OrderItemInput) (acc : Rat)
      (lines : List ProcessedOrderItem) (sub : Rat),
    processItemsAux catalog acc items = .ok (lines, sub) →
    sub = (lines.map ProcessedOrderItem.subtotal).foldl JSNumber.jsAdd acc
    ∧ lines.length = items.length
    ∧ lines.map ProcessedOrderItem.quantity
        = items.map (fun i => effectiveQuantity i.quantity)
    ∧ ∀ l ∈ lines, ∃ p, findProduct catalog l.productId = some p
        ∧ p.isAvailable = true ∧ l.unitPrice = JSNumber.fl64 p.price
        ∧ l.subtotal = JSNumber.jsLineSubtotal p.price l.quantity := by
  intro items
  induction items with
  | nil =>
    intro acc lines sub h
    simp only [processItemsAux, Except.ok.injEq, Prod.mk.injEq] at h
    obtain ⟨h1, h2⟩ := h
    subst h1
    subst h2
    simp
  | cons item rest ih =>
    intro acc lines sub h
    unfold processItemsAux at h
    cases hfind : findProduct catalog item.productId with
    | none => rw [hfind] at h; cases h
    | some p =>
      simp only [hfind] at h
      cases hav : p.isAvailable with
      | false => simp only [hav, if_true] at h; cases h
      | true =>
        simp only [hav, Bool.true_eq_false, if_false] at h
        split at h
        · cases h
        · rename_i ls s hrec
          simp only [Except.ok.injEq, Prod.mk.injEq] at h
          obtain ⟨h1, h2⟩ := h
          subst h1
          subst h2
          obtain ⟨ihsum, ihlen, ihq, ihall⟩ := ih _ ls _ hrec
          refine ⟨by simpa using ihsum, by simp [ihlen], by simp [ihq], ?_⟩
          intro l hl
          rcases List.mem_cons.1 hl with hhead | htail
          · subst hhead
            exact ⟨p, hfind, hav, rfl, rfl⟩
          · exact ihall l htail

/-- The pricing loop's guarantees started from the controller's initial
subtotal of 0. -/
lemma processItems_ok (catalog : List Product) (items : List OrderItemInput)
    (lines : List ProcessedOrderItem) (sub : Rat)
    (h : processItems catalog items = .ok (lines, sub)) :
    sub = (lines.map ProcessedOrderItem.subtotal).foldl JSNumber.jsAdd 0
    ∧ lines.length = items.length
    ∧ lines.map ProcessedOrderItem.quantity
        = items.map (fun i => effectiveQuantity i.quantity)
    ∧ ∀ l ∈ lines, ∃ p, findProduct catalog l.productId = some p
        ∧ p.isAvailable = true ∧ l.unitPrice = JSNumber.fl64 p.price
        ∧ l.subtotal = JSNumber.jsLineSubtotal p.price l.quantity :=
  processItemsAux_ok catalog items 0 lines sub h

/-- A failure of the pricing loop on a suffix propagates over any prefix
of valid lines, whatever the running subtotal: the loop returns the first
failure it meets. -/
lemma processItemsAux_append_error (catalog : List Product) :
    ∀ (pre : List OrderItemInput), (∀ i ∈ pre, lineValid catalog i) →
    ∀ (rest : List OrderItemInput) (e : CreateOrderError),
    (∀ acc : Rat, processItemsAux catalog acc rest = .error e) →
    ∀ acc : Rat, processItemsAux catalog acc (pre ++ rest) = .error e := by
  intro pre
  induction pre with
  | nil => intro _ rest e h acc; simpa using h acc
  | cons a t ih =>
    intro hval rest e h acc
    obtain ⟨p, hfind, hav⟩ := hval a (List.mem_cons_self a t)
    have ht : ∀ i ∈ t, lineValid catalog i := fun i hi =>
      hval i (List.mem_cons_of_mem a hi)
    have hrec := ih ht rest e h
    simp only [List.cons_append]
    unfold processItemsAux
    simp only [hfind, hav, Bool.true_eq_false, if_false, hrec]


/-- Counterexample to C2: the five-line order 0.70 + 0.70 + 0.20 + 0.20 +
0.20 references only existing, available products and its exact decimal
subtotal is exactly 2.00, yet creation fails with MINIMUM_ORDER_NOT_MET,
because the binary64 accumulation the controller actually compares
against 2.0 ends at 1.9999999999999998. -/
theorem claim2_exact_subtotal_counterexample :
    (reqFiveLines.items.all fun i =>
        ((findProduct catalogCents i.productId).map Product.isAvailable).getD
          false) = true
    ∧ exactSubtotal catalogCents reqFiveLines.items = 2
    ∧ createOrder catalogCents exampleEmptyDb 7 reqFiveLines =
        (exampleEmptyDb, .error .minimumOrderNotMet) :=
  ⟨by with_unfolding_all decide, by with_unfolding_all decide,
   by with_unfolding_all decide⟩

/-- Amended C2: a shape-valid request whose lines all price successfully
creates an order priced exactly as the controller's binary64 arithmetic
prescribes — each line's unit price is the binary64 reading of the
current catalog price, each line subtotal is the binary64 product of that
unit price and the quantity, the order subtotal is the left-to-right
binary64 accumulation of the line subtotals — provided that accumulated
subtotal is at least 2.00 (the float value, not the exact decimal sum)
and the computed values fit the store's column types; the fee is the
constant 1.00, the recorded total is subtotal + 1.00 (the persisted
Decimal(8, 2) relation) and the status is PENDING. -/
theorem claim2_float_pricing (catalog : List Product) (db : DBState)
    (uid : Nat) (req : CreateOrderRequest) (loc pmStr : String)
    (pm : PaymentMethod) (lines : List ProcessedOrderItem) (sub : Rat)
    (hloc : req.deliveryLocation = some loc)
    (hpm : req.paymentMethod = some pmStr)
    (hdec : decodePaymentMethod pmStr = some pm)
    (hok : processItems catalog req.items = .ok (lines, sub))
    (hmin : 2 ≤ sub)
    (hfits : writeFits lines sub (sub + 1) = true) :
    ∃ row, (createOrder catalog db uid req).2 = .ok row
      ∧ row.status = .PENDING
      ∧ row.subtotal = sub
      ∧ row.deliveryFee = 1
      ∧ row.total = sub + 1
      ∧ sub = (lines.map ProcessedOrderItem.subtotal).foldl JSNumber.jsAdd 0
      ∧ ∀ l ∈ lines, ∃ p, findProduct catalog l.productId = some p
          ∧ l.unitPrice = JSNumber.fl64 p.price
          ∧ l.subtotal = JSNumber.jsLineSubtotal p.price l.quantity := by
  obtain ⟨hsum, -, -, hall⟩ := processItems_ok catalog req.items lines sub hok
  have hne : req.items.isEmpty = false := by
    cases hitems : req.items with
    | nil =>
      rw [hitems] at hok
      simp only [processItems, processItemsAux, Except.ok.injEq,
        Prod.mk.injEq] at hok
      rw [← hok.2] at hmin
      norm_num at hmin
    | cons a t => simp
  have hnlt : ¬sub < 2 := not_lt.mpr hmin
  refine ⟨{ id := db.nextOrderId, userId := uid, status := .PENDING,
            deliveryLocation := loc, paymentMethod := pm, subtotal := sub,
            deliveryFee := 1, total := sub + 1, notes := req.notes },
          ?_, rfl, rfl, rfl, rfl, hsum, ?_⟩
  · unfold createOrder
    rw [hne]
    simp only [Bool.false_eq_true, if_false, hok, hloc, hpm, Option.some_bind,
      hdec, hnlt, hfits, if_true]
  · intro l hl
    obtain ⟨p, h2, -, h4, h5⟩ := hall l hl
    exact ⟨p, h2, h4, h5⟩

/-- Witness for amended C2 at the specification's scenario: product 1 at
3.50 (a binary64-representable price), quantity 2: subtotal 7.00, fee
1.00, total 8.00, status PENDING. -/
theorem claim2_float_pricing_witness :
    ∃ row, (createOrder exampleCatalog exampleEmptyDb 7 exampleCreateReq).2 = .ok row
      ∧ row.status = .PENDING ∧ row.subtotal = 7 ∧ row.deliveryFee = 1
      ∧ row.total = 8 := by
  obtain ⟨row, h1, h2, h3, h4, h5, -, -⟩ :=
    claim2_float_pricing exampleCatalog exampleEmptyDb 7 exampleCreateReq
      "Aula 101" "CASH" .CASH [exampleLine] 7 rfl rfl rfl
      (by with_unfolding_all decide) (by norm_num)
      (by with_unfolding_all decide)
  refine ⟨row, h1, h2, h3, h4, ?_⟩
  rw [h5]
  norm_num

/-- Case analysis of a `createOrder` run: it either fails leaving the
store untouched, or appends one PENDING order row satisfying the money
invariant, one line row per computed line, and one confirmation
notification, in a single step. -/
lemma createOrder_result (catalog : List Product) (db : DBState)
    (uid : Nat) (req : CreateOrderRequest) :
    (∃ e, createOrder catalog db uid req = (db, .error e))
    ∨ (∃ row lines sub,
        processItems catalog req.items = .ok (lines, sub)
        ∧ row.status = .PENDING
        ∧ row.deliveryFee = 1 ∧ row.subtotal = sub ∧ row.total = sub + 1
        ∧ lines.length = req.items.length
        ∧ createOrder catalog db uid req =
            ({ orders := db.orders ++ [row],
               orderItems := db.orderItems ++ lines.map (mkOrderItemRow row.id),
               notifications := db.notifications ++
                 [mkOrderConfirmedNotification uid row.id],
               nextOrderId := row.id + 1 }, .ok row)) := by
  by_cases hempty : req.items.isEmpty
  · exact Or.inl ⟨_, by unfold createOrder; rw [hempty]; rfl⟩
  · rw [Bool.not_eq_true] at hempty
    cases hpi : processItems catalog req.items with
    | error e =>
      exact Or.inl ⟨e, by unfold createOrder; rw [hempty, hpi]; rfl⟩
    | ok pr =>
      obtain ⟨lines, sub⟩ := pr
      by_cases hmin : sub < 2
      · refine Or.inl ⟨.minimumOrderNotMet, ?_⟩
        unfold createOrder
        rw [hempty, hpi]
        simp [hmin]
      · cases hloc : req.deliveryLocation with
        | none =>
          refine Or.inl ⟨.orderCreateError, ?_⟩
          unfold createOrder
          rw [hempty, hpi, hloc]
          simp [hmin]
        | some loc =>
          cases hpm : req.paymentMethod.bind decodePaymentMethod with
          | none =>
            refine Or.inl ⟨.orderCreateError, ?_⟩
            unfold createOrder
            rw [hempty, hpi, hloc, hpm]
            simp [hmin]
          | some pm =>
            by_cases hfits : writeFits lines sub (sub + 1) = true
            · refine Or.inr ⟨⟨db.nextOrderId, uid, .PENDING, loc, pm, sub, 1,
                  sub + 1, req.notes⟩, lines, sub, rfl, rfl, rfl, rfl, rfl,
                (processItems_ok catalog req.items lines sub hpi).2.1, ?_⟩
              unfold createOrder
              rw [hempty, hpi, hloc, hpm]
              simp [hmin, hfits]
            · refine Or.inl ⟨.orderCreateError, ?_⟩
              unfold createOrder
              rw [hempty, hpi, hloc, hpm]
              rw [Bool.not_eq_true] at hfits
              simp [hmin, hfits]

/-- Claim C3: order creation is all-or-nothing.  Every run either fails
and leaves the store exactly as it was, or appends exactly one PENDING
order row, one line row per computed line (one per requested line), and
one confirmation notification referencing the new order, in a single
step. -/
theorem claim3_creation_atomicity (catalog : List Product) (db : DBState)
    (uid : Nat) (req : CreateOrderRequest) :
    (∃ e, createOrder catalog db uid req = (db, .error e))
    ∨ (∃ row lines sub,
        processItems catalog req.items = .ok (lines, sub)
        ∧ row.status = .PENDING
        ∧ lines.length = req.items.length
        ∧ createOrder catalog db uid req =
            ({ orders := db.orders ++ [row],
               orderItems := db.orderItems ++ lines.map (mkOrderItemRow row.id),
               notifications := db.notifications ++
                 [mkOrderConfirmedNotification uid row.id],
               nextOrderId := row.id + 1 }, .ok row)) := by
  rcases createOrder_result catalog db uid req with h |
    ⟨row, lines, sub, h1, h2, -, -, -, h6, h7⟩
  · exact Or.inl h
  · exact Or.inr ⟨row, lines, sub, h1, h2, h6, h7⟩

/-- Claim C4: every business-rule violation aborts order creation before
any write, persisting nothing, and the first failure met is the one
returned: an empty line list gives the empty-order error; a first invalid
line after any prefix of valid lines gives that line's error (missing
product or unavailable product); and a priced line list accumulating less
than 2.00 gives the minimum-order error. -/
theorem claim4_creation_failures (catalog : List Product) (db : DBState)
    (uid : Nat) :
    (∀ req : CreateOrderRequest, req.items = [] →
        createOrder catalog db uid req = (db, .error .noItemsInOrder))
    ∧ (∀ (req : CreateOrderRequest) pre item post,
        req.items = pre ++ item :: post →
        (∀ i ∈ pre, lineValid catalog i) →
        findProduct catalog item.productId = none →
        createOrder catalog db uid req =
          (db, .error (.productNotFound item.productId)))
    ∧ (∀ (req : CreateOrderRequest) pre item post p,
        req.items = pre ++ item :: post →
        (∀ i ∈ pre, lineValid catalog i) →
        findProduct catalog item.productId = some p →
        p.isAvailable = false →
        createOrder catalog db uid req =
          (db, .error (.productNotAvailable p.name)))
    ∧ (∀ (req : CreateOrderRequest) lines sub, req.items ≠ [] →
        processItems catalog req.items = .ok (lines, sub) → sub < 2 →
        createOrder catalog db uid req = (db, .error .minimumOrderNotMet)) := by
  refine ⟨?_, ?_, ?_, ?_⟩
  · intro req h
    unfold createOrder
    rw [h]
    rfl
  · intro req pre item post hitems hval hfind
    have herr : ∀ acc : Rat, processItemsAux catalog acc (item :: post) =
        .error (.productNotFound item.productId) := by
      intro acc
      unfold processItemsAux
      rw [hfind]
    have hall : processItems catalog req.items =
        .error (.productNotFound item.productId) := by
      rw [hitems]
      exact processItemsAux_append_error catalog pre hval _ _ herr 0
    have hne : req.items.isEmpty = false := by
      rw [hitems]; cases pre <;> simp
    unfold createOrder
    rw [hne, hall]
    rfl
  · intro req pre item post p hitems hval hfind hav
    have herr : ∀ acc : Rat, processItemsAux catalog acc (item :: post) =
        .error (.productNotAvailable p.name) := by
      intro acc
      unfold processItemsAux
      simp only [hfind, hav, if_true]
    have hall : processItems catalog req.items =
        .error (.productNotAvailable p.name) := by
      rw [hitems]
      exact processItemsAux_append_error catalog pre hval _ _ herr 0
    have hne : req.items.isEmpty = false := by
      rw [hitems]; cases pre <;> simp
    unfold createOrder
    rw [hne, hall]
    rfl
  · intro req lines sub hnil hok hlt
    have hne : req.items.isEmpty = false := by
      cases hitems : req.items with
      | nil => exact absurd hitems hnil
      | cons a t => simp
    unfold createOrder
    rw [hne, hok]
    simp [hlt]


/-- Counterexample to C9: a supplied quantity of 0 is persisted as 1 (JS
`||` treats 0 as absent), and a supplied quantity of -2 is persisted as
-2, which is not a positive integer. -/
theorem claim9_quantity_counterexample :
    reqQtyZero.items.map (fun i => i.quantity) = [some 0]
    ∧ (createOrder exampleCatalog exampleEmptyDb 7 reqQtyZero).1.orderItems.map
        OrderItemRow.quantity = [1]
    ∧ reqQtyNegative.items.map (fun i => i.quantity) = [some (-2), some 3]
    ∧ (createOrder exampleCatalog exampleEmptyDb 7 reqQtyNegative).1.orderItems.map
        OrderItemRow.quantity = [-2, 3] :=
  ⟨rfl, by with_unfolding_all decide, rfl, by with_unfolding_all decide⟩

/-- Amended C9: the quantity the pricing loop records for each requested
line — and which the creation transaction persists verbatim — equals the
requested quantity whenever one is supplied and is nonzero (negative
values included, unchecked), and defaults to 1 exactly when the quantity
field is absent or equals 0. -/
theorem claim9_effective_quantity (catalog : List Product)
    (items : List OrderItemInput) (lines : List ProcessedOrderItem)
    (sub : Rat) (h : processItems catalog items = .ok (lines, sub)) :
    lines.map ProcessedOrderItem.quantity =
      items.map (fun i => effectiveQuantity i.quantity) :=
  (processItems_ok catalog items lines sub h).2.2.1

/-- Witness for amended C9 at a concrete line list. -/
theorem claim9_effective_quantity_witness :
    ([{ productId := 1, quantity := 1, unitPrice := 7/2, subtotal := 7/2 }] :
        List ProcessedOrderItem).map ProcessedOrderItem.quantity =
      ([{ productId := 1, quantity := some 0 }] :
        List OrderItemInput).map (fun i => effectiveQuantity i.quantity) :=
  claim9_effective_quantity exampleCatalog
    [{ productId := 1, quantity := some 0 }]
    [{ productId := 1, quantity := 1, unitPrice := 7/2, subtotal := 7/2 }]
    (7/2) (by with_unfolding_all decide)

/-- The status patch touches no field other than the status. -/
lemma statusPatch_money (oid : Nat) (s : OrderStatus) (o : OrderRow) :
    (statusPatch oid s o).subtotal = o.subtotal
    ∧ (statusPatch oid s o).deliveryFee = o.deliveryFee
    ∧ (statusPatch oid s o).total = o.total := by
  unfold statusPatch
  split <;> exact ⟨rfl, rfl, rfl⟩

/-- Patching statuses across a row list preserves the money invariant. -/
lemma moneyInvariant_map (l : List OrderRow) (oid : Nat) (s : OrderStatus)
    (h : ∀ o ∈ l, o.total = o.subtotal + o.deliveryFee) :
    ∀ o ∈ l.map (statusPatch oid s), o.total = o.subtotal + o.deliveryFee := by
  intro o' ho'
  obtain ⟨o, ho, rfl⟩ := List.mem_map.1 ho'
  obtain ⟨h1, h2, h3⟩ := statusPatch_money oid s o
  rw [h1, h2, h3]
  exact h o ho

/-- Claim C8: every created order satisfies total = subtotal + deliveryFee
with the fixed fee 1.00, the invariant is preserved by creation, admin
status transition and user cancellation, and the two mutating operations
either leave the order table unchanged or apply a pure status patch that
keeps every other field of every row. -/
theorem claim8_total_invariant :
    (∀ catalog db uid req db1 row,
        createOrder catalog db uid req = (db1, .ok row) →
        row.deliveryFee = 1 ∧ row.total = row.subtotal + row.deliveryFee)
    ∧ (∀ catalog db uid req, moneyInvariant db →
        moneyInvariant (createOrder catalog db uid req).1)
    ∧ (∀ db oid s, (updateOrderStatus db oid s).1.orders = db.orders
        ∨ (updateOrderStatus db oid s).1.orders =
            db.orders.map (statusPatch oid s))
    ∧ (∀ db oid s, moneyInvariant db →
        moneyInvariant (updateOrderStatus db oid s).1)
    ∧ (∀ db uid oid, (cancelOrder db uid oid).1.orders = db.orders
        ∨ (cancelOrder db uid oid).1.orders =
            db.orders.map (statusPatch oid .CANCELLED))
    ∧ (∀ db uid oid, moneyInvariant db →
        moneyInvariant (cancelOrder db uid oid).1) := by
  have hupd : ∀ db oid s, (updateOrderStatus db oid s).1.orders = db.orders
      ∨ (updateOrderStatus db oid s).1.orders =
          db.orders.map (statusPatch oid s) := by
    intro db oid s
    unfold updateOrderStatus
    split
    · exact Or.inl rfl
    · split
      · exact Or.inr rfl
      · exact Or.inl rfl
  have hcan : ∀ db uid oid, (cancelOrder db uid oid).1.orders = db.orders
      ∨ (cancelOrder db uid oid).1.orders =
          db.orders.map (statusPatch oid .CANCELLED) := by
    intro db uid oid
    unfold cancelOrder
    split
    · exact Or.inl rfl
    · split
      · exact Or.inl rfl
      · split
        · exact Or.inl rfl
        · exact Or.inr rfl
  refine ⟨?_, ?_, hupd, ?_, hcan, ?_⟩
  · intro catalog db uid req db1 row h
    rcases createOrder_result catalog db uid req with ⟨e, heq⟩ |
      ⟨row2, lines, sub, -, -, hfee, hsub, htot, -, heq⟩
    · rw [heq] at h
      injection h with hdb hres
      cases hres
    · rw [heq] at h
      injection h with hdb hres
      injection hres with hrow
      subst hrow
      exact ⟨hfee, by rw [htot, hsub, hfee]⟩
  · intro catalog db uid req hinv
    rcases createOrder_result catalog db uid req with ⟨e, heq⟩ |
      ⟨row, lines, sub, -, -, hfee, hsub, htot, -, heq⟩
    · rw [heq]
      exact hinv
    · rw [heq]
      intro o ho
      rcases List.mem_append.1 ho with h | h
      · exact hinv o h
      · rw [List.mem_singleton] at h
        subst h
        rw [htot, hsub, hfee]
  · intro db oid s hinv
    rcases hupd db oid s with h | h <;> rw [moneyInvariant, h]
    · exact hinv
    · exact moneyInvariant_map db.orders oid s hinv
  · intro db uid oid hinv
    rcases hcan db uid oid with h | h <;> rw [moneyInvariant, h]
    · exact hinv
    · exact moneyInvariant_map db.orders oid .CANCELLED hinv

/-- A search over a list restricted by a predicate only depends on the
sublist satisfying any weaker predicate. -/
lemma find?_eq_find?_filter {α : Type} (q r : α → Bool)
    (himp : ∀ a, q a = true → r a = true) :
    ∀ l : List α, l.find? q = (l.filter r).find? q := by
  intro l
  induction l with
  | nil => rfl
  | cons a t ih =>
    cases hq : q a with
    | true =>
      have hr := himp a hq
      simp [List.find?_cons, List.filter_cons, hq, hr]
    | false =>
      cases hr : r a with
      | true => simp [List.find?_cons, List.filter_cons, hq, hr, ih]
      | false => simp [List.find?_cons, List.filter_cons, hq, hr, ih]

/-- Claim C10: a caller without the ADMIN role cannot observe other
users' orders through `getOrderById`: an id owned by someone else and a
nonexistent id both yield `ORDER_NOT_FOUND`, and two stores that agree on
the caller's own orders yield identical responses whatever the other
rows are. -/
theorem claim10_nonadmin_not_found :
    (∀ (db : DBState) (caller oid : Nat) (role : Role), role ≠ .ADMIN →
        (∀ o ∈ db.orders, o.id = oid → o.userId ≠ caller) →
        getOrderById db caller role oid = .error .orderNotFound)
    ∧ (∀ (db1 db2 : DBState) (caller oid : Nat) (role : Role), role ≠ .ADMIN →
        db1.orders.filter (fun o => o.userId == caller) =
          db2.orders.filter (fun o => o.userId == caller) →
        getOrderById db1 caller role oid = getOrderById db2 caller role oid) := by
  have hadm : ∀ role : Role, role ≠ .ADMIN → (role == Role.ADMIN) = false := by
    intro role h
    cases role
    · rfl
    · exact absurd rfl h
  constructor
  · intro db caller oid role hrole hothers
    have hnone : db.orders.find? (fun o => o.id == oid &&
        (role == Role.ADMIN || o.userId == caller)) = none := by
      rw [List.find?_eq_none]
      intro o ho
      simp only [hadm role hrole, Bool.false_or, Bool.and_eq_true, beq_iff_eq,
        not_and]
      exact fun h1 => hothers o ho h1
    unfold getOrderById
    rw [hnone]
  · intro db1 db2 caller oid role hrole hfilter
    have himp : ∀ o : OrderRow,
        (o.id == oid && (role == Role.ADMIN || o.userId == caller)) = true →
        (o.userId == caller) = true := by
      intro o h
      rw [hadm role hrole] at h
      simp only [Bool.false_or, Bool.and_eq_true] at h
      exact h.2
    have h1 := find?_eq_find?_filter _ _ himp db1.orders
    have h2 := find?_eq_find?_filter _ _ himp db2.orders
    unfold getOrderById
    rw [h1, h2, hfilter]

/-- Counterexample to C6: with a catalog price of 1.10 and quantity 3,
the line subtotal the controller computes in binary64 JS numbers differs
from the exact decimal product 1.10 × 3. -/
theorem claim6_exactness_counterexample :
    JSNumber.jsLineSubtotal (11/10) 3 ≠ 11/10 * 3 := by
  with_unfolding_all decide

/-- Amended C6: the controller does its money arithmetic in IEEE-754
binary64 (JS `Number`), not in a decimal type; the computed values drift
from exact decimal arithmetic on prices that are not binary-representable
(1.10 × 3 yields 7430939385161319 / 2^51, not 3.30), and agree with it
only when every value is representable (3.50 × 2 = 7.00 exactly). -/
theorem claim6_float_drift :
    JSNumber.jsLineSubtotal (11/10) 3 ≠ 33/10
    ∧ (JSNumber.jsLineSubtotal (11/10) 3).num = 7430939385161319
    ∧ (JSNumber.jsLineSubtotal (11/10) 3).den = 2 ^ 51
    ∧ JSNumber.jsLineSubtotal (7/2) 2 = 7/2 * 2 :=
  ⟨by with_unfolding_all decide, by with_unfolding_all decide,
   by with_unfolding_all decide, by with_unfolding_all decide⟩


/-- Behavior documenting the C7 divergence: with no validator middleware
on the order route, a request with no delivery location and an
out-of-enum payment method is not rejected up front — it runs the product
lookups and fails only at the store write with the catch-all 500; and
when such a request also names a missing product, the lookup error is
what comes back, showing lookups run before any shape check. -/
theorem claim7_missing_validation_behavior :
    createOrder exampleCatalog exampleEmptyDb 7 reqMissingLocation =
      (exampleEmptyDb, .error .orderCreateError)
    ∧ createOrder exampleCatalog exampleEmptyDb 7 reqBadShapeUnknownProduct =
      (exampleEmptyDb, .error (.productNotFound 99)) :=
  ⟨by with_unfolding_all decide, by with_unfolding_all decide⟩

end CoffeUcss
